import Mathlib

/-!
Shallow embedding of the cross-method comparison pipeline of the
dynamic-consistency-quest repository (HamnerDelpDataset scripts
`02_collateSimulations.py`, `03_analyseSimulations.py`, `runSimulations.py`).

Scalar channel data is embedded as `List ℚ` (the scripts' float arrays,
modelled with exact arithmetic); curves that go through `np.rad2deg` or
`np.sqrt` live in `ℝ`.
-/

namespace DCQ

/-! ### Definitions: the embedded operations -/

/-- Embedding of `np.argmax` on a boolean mask: index of the first occurrence of the
maximum value (`False < True`); an all-`False` mask has maximum `False`
at index 0. -/
def npArgmax (l : List Bool) : Nat :=
  l.findIdx (fun b => b == l.any id)

/-- Embedding of `np.ndarray.max()` on a nonempty array: maximum of all elements. -/
def npMax : List ℚ → ℚ
  | [] => 0
  | x :: xs => xs.foldl max x

/-- Embedding of `np.ndarray.mean()`: sum divided by length. -/
def npMean (l : List ℚ) : ℚ := l.sum / l.length

/-- Embedding of `np.mean` over real-valued data. -/
noncomputable def npMeanReal (l : List ℝ) : ℝ := l.sum / l.length

/-- Embedding of `np.searchsorted(a, v)` with the default left side: first index `i`
with `v ≤ a[i]`, or `a.length` when there is none (this is what
`scipy.interpolate.interp1d` uses to locate the interpolation interval). -/
def searchsortedLeft (a : List ℚ) (v : ℚ) : Nat :=
  a.findIdx (fun t => decide (v ≤ t))

/-- Python index normalisation for a slice bound on a sequence of length
`n`: negative indices count from the end, out-of-range bounds clamp. -/
def pyIdx (n : Nat) (i : Int) : Nat :=
  if i < 0 then (max (i + n) 0).toNat else min i.toNat n

/-- Python slice `l[a:b]`: the half-open index window after bound
normalisation. -/
def pySlice (l : List ℚ) (a b : Int) : List ℚ :=
  (l.take (pyIdx l.length b)).drop (pyIdx l.length a)

/-- Resolution of `initialInd = np.argmax(time > initialTime)` and
`finalInd = np.argmax(time > finalTime) - 1`. -/
def cycleWindowResolve (time : List ℚ) (initialTime finalTime : ℚ) : Nat × Int :=
  (npArgmax (time.map (fun t => decide (initialTime < t))),
   (npArgmax (time.map (fun t => decide (finalTime < t))) : Int) - 1)

/-- Modelled from the spec: the `CycleWindowResolver` described in section
4.1 raises `OutOfRangeError` when no index satisfies either search; the
scripts have no such error path, so this Except-valued resolver exists only
to compare the spec text with `cycleWindowResolve`. -/
def cycleWindowResolveSpec (time : List ℚ) (initialTime finalTime : ℚ) :
    Except String (Nat × Int) :=
  if (time.any (fun t => decide (initialTime < t))) &&
     (time.any (fun t => decide (finalTime < t))) then
    Except.ok (cycleWindowResolve time initialTime finalTime)
  else
    Except.error "OutOfRangeError"

/-- The windowed value channel `value[initialInd:finalInd]`
(`02_collateSimulations.py` lines 313-323). -/
def windowValue (time value : List ℚ) (initialTime finalTime : ℚ) : List ℚ :=
  pySlice value ((cycleWindowResolve time initialTime finalTime).1 : Int)
    (cycleWindowResolve time initialTime finalTime).2

/-- Embedding of `np.linspace(a, b, n)`: `n` evenly spaced samples from `a` to `b`
inclusive, the i-th at `a + i * (b - a) / (n - 1)`. -/
def linspace (a b : ℚ) (n : Nat) : List ℚ :=
  (List.range n).map (fun (i : Nat) => a + (i : ℚ) * ((b - a) / ((n - 1 : Nat) : ℚ)))

/-- Embedding of `scipy.interpolate.interp1d(time, value)` evaluated at `x` (linear
interpolation): locate the interval with a left-side `searchsorted`, clip
the located index into `[1, len - 1]`, then evaluate the two-point line
through the bracketing samples. -/
def interp1d (time value : List ℚ) (x : ℚ) : ℚ :=
  let idx := min (max (searchsortedLeft time x) 1) (time.length - 1)
  value.getD (idx - 1) 0 +
    (value.getD idx 0 - value.getD (idx - 1) 0) /
      (time.getD idx 0 - time.getD (idx - 1) 0) * (x - time.getD (idx - 1) 0)

/-- Normalisation `interpFunc(np.linspace(time[0], time[-1], 101))`: resample the
windowed channel onto the fixed 101-point grid. -/
def normalize101 (time value : List ℚ) : List ℚ :=
  (linspace (time.getD 0 0) (time.getD (time.length - 1) 0) 101).map
    (interp1d time value)

/-- Peak vertical ground reaction force: `np.array((R_vy.max(), L_vy.max())).max()`. -/
def peakVGRF (rightVGRF leftVGRF : List ℚ) : ℚ :=
  max (npMax rightVGRF) (npMax leftVGRF)

/-- Force threshold: `forceResidualRec = peakVGRF * 0.05`. -/
def forceResidualRec (rightVGRF leftVGRF : List ℚ) : ℚ :=
  peakVGRF rightVGRF leftVGRF * (5 / 100)

/-- Moment threshold: `momentResidualRec = peakVGRF * modelCOM * 0.01`. -/
def momentResidualRec (rightVGRF leftVGRF : List ℚ) (comHeight : ℚ) : ℚ :=
  peakVGRF rightVGRF leftVGRF * comHeight * (1 / 100)

/-- Per-cycle statistic `np.abs(series).mean()` of a residual series. -/
def npAbsMean (l : List ℚ) : ℚ := npMean (l.map abs)

/-- Per-cycle statistic `np.abs(series).max()` of a residual series. -/
def npAbsMax (l : List ℚ) : ℚ := npMax (l.map abs)

/-- Aggregation `np.array([np.abs(res[cycle]).mean() for cycle in cycleList]).mean()`. -/
def avgResidualEntry (cycles : List (List ℚ)) : ℚ :=
  npMean (cycles.map npAbsMean)

/-- Aggregation `np.array([np.abs(res[cycle]).max() for cycle in cycleList]).mean()`. -/
def peakResidualEntry (cycles : List (List ℚ)) : ℚ :=
  npMean (cycles.map npAbsMax)

/-- RRA / Moco shape: `np.array([t[cycle] for cycle in cycleList]).mean()`. -/
def solutionTimeSingle (runTimes : List ℚ) : ℚ := npMean runTimes

/-- RRA3 shape: `np.array([np.sum(t[cycle]) for cycle in cycleList]).mean()`. -/
def solutionTimeIterative (runTimes : List (List ℚ)) : ℚ :=
  npMean (runTimes.map List.sum)

/-- Mean of `finalTime - initialTime` over the trial's
cycles. -/
def avgCycleDuration (timings : List (ℚ × ℚ)) : ℚ :=
  npMean (timings.map (fun c => c.2 - c.1))

/-- AddBiomechanics shape:
`addBiomechanicsTime * (avgCycleDuration / addBiomechDuration)` with
`addBiomechDuration = trialTime[-1] - trialTime[0]`. -/
def addBiomechanicsTimeScaled (totalTime : ℚ) (timings : List (ℚ × ℚ))
    (trialTime : List ℚ) : ℚ :=
  totalTime * (avgCycleDuration timings /
    (trialTime.getD (trialTime.length - 1) 0 - trialTime.getD 0 0))

/-- The three pelvis translation coordinates that stay in meters. -/
def translationVars : List String := ["pelvis_tx", "pelvis_ty", "pelvis_tz"]

/-- Embedding of `np.rad2deg`: multiply by `180 / π`. -/
noncomputable def rad2deg (x : ℝ) : ℝ := x * (180 / Real.pi)

/-- Extraction of a Moco kinematic variable: the translation coordinates
pass through unchanged, all other coordinates are still in radians and go
through `np.rad2deg`. -/
noncomputable def mocoExtractVar (var : String) (raw : List ℝ) : List ℝ :=
  if var ∈ translationVars then raw else raw.map rad2deg

/-- The three gait cycles extracted per trial (`cycleList`). -/
inductive Cycle
  | cycle1
  | cycle2
  | cycle3
deriving DecidableEq

/-- The scripts' `cycleList`. -/
def cycleList : List Cycle := [Cycle.cycle1, Cycle.cycle2, Cycle.cycle3]

/-- The five tools compared (`toolList`). -/
inductive Tool
  | ik
  | rra
  | rra3
  | moco
  | addBiomech
deriving DecidableEq

/-- RMSE `np.sqrt(np.mean((a - b)**2))` of two 101-point curves. -/
noncomputable def rmse (a b : List ℚ) : ℝ :=
  Real.sqrt ((npMean (List.zipWith (fun x y => (x - y) ^ 2) a b) : ℚ) : ℝ)

/-- One stored entry of the per-cycle RMSE dictionaries: for tools `a`, `b`
and cycle `c` the scripts compute
`np.sqrt(np.mean((aKin[run]['cycle1'][var] - bKin[run]['cycle1'][var])**2))`
— the `'cycle1'` curves are indexed for every `c` in `cycleList`
(`02_collateSimulations.py` lines 533-565). -/
noncomputable def kinematicsRMSE (kin : Tool → Cycle → List ℚ) (a b : Tool)
    (c : Cycle) : ℝ :=
  rmse (kin a Cycle.cycle1) (kin b Cycle.cycle1)

/-- Aggregation `np.mean([...RMSE[...][cycle][var] for cycle in cycleList])`: the
per-trial mean of the stored per-cycle entries. -/
noncomputable def kinematicsRMSEmean (kin : Tool → Cycle → List ℚ)
    (a b : Tool) : ℝ :=
  npMeanReal (cycleList.map (kinematicsRMSE kin a b))

/-- A kinematics store whose `cycle2` curves differ from its `cycle1`
curves: every curve is the constant `0` except the RRA `cycle2` curve,
which is the constant `1`. -/
def kinStoreEx : Tool → Cycle → List ℚ :=
  fun t c =>
    match t, c with
    | Tool.rra, Cycle.cycle2 => [1]
    | _, _ => [0]

/-! ### Lemmas and claim theorems -/

theorem npArgmax_of_all_false (l : List Bool) (h : l.any id = false) :
    npArgmax l = 0 := by
  unfold npArgmax
  cases l with
  | nil => rfl
  | cons b t =>
      simp only [List.any_cons, id] at h
      obtain ⟨hb, _⟩ := Bool.or_eq_false_iff.mp h
      subst hb
      rw [List.findIdx_cons]
      simp [h]

theorem npArgmax_first_true (l : List Bool) (h : l.any id = true) :
    npArgmax l < l.length ∧ l.getD (npArgmax l) false = true ∧
      ∀ j < npArgmax l, l.getD j false = false := by
  induction l with
  | nil => simp at h
  | cons b t ih =>
      unfold npArgmax
      cases hb : b with
      | true =>
          rw [List.findIdx_cons]
          simp only [List.any_cons, hb, Bool.true_or, id]
          simp
      | false =>
          simp only [List.any_cons, hb, Bool.false_or, id] at h
          rw [List.findIdx_cons]
          simp only [List.any_cons, hb, Bool.false_or, id, h]
          have harg : (fun x => x == t.any id) = (fun x => x == true) := by
            funext x; rw [h]
          have ht := ih h
          unfold npArgmax at ht
          rw [harg] at ht
          have hcond : (false == true) = false := rfl
          rw [hcond]
          simp only [cond_false]
          refine ⟨by simpa using Nat.succ_lt_succ ht.1, by simpa using ht.2.1, ?_⟩
          intro j hj
          cases j with
          | zero => simp
          | succ j' =>
              have : j' < t.findIdx (fun x => x == true) := Nat.lt_of_succ_lt_succ hj
              simpa using ht.2.2 j' this

theorem getD_map_bool (p : ℚ → Bool) (l : List ℚ) (j : Nat) (hj : j < l.length) :
    (l.map p).getD j false = p (l.getD j 0) := by
  induction l generalizing j with
  | nil => simp at hj
  | cons x t ih =>
      cases j with
      | zero => rfl
      | succ j' => simpa using ih j' (by simpa using hj)

theorem any_map_decide (p : ℚ → Bool) (l : List ℚ) :
    (l.map p).any id = l.any p := by
  induction l with
  | nil => rfl
  | cons x t ih => simp [ih]

theorem npArgmax_gt_spec (time : List ℚ) (c : ℚ)
    (h : ∃ i, i < time.length ∧ c < time.getD i 0) :
    npArgmax (time.map (fun t => decide (c < t))) < time.length ∧
    c < time.getD (npArgmax (time.map (fun t => decide (c < t)))) 0 ∧
    ∀ j < npArgmax (time.map (fun t => decide (c < t))), time.getD j 0 ≤ c := by
  have hany : (time.map (fun t => decide (c < t))).any id = true := by
    rw [any_map_decide, List.any_eq_true]
    obtain ⟨i, hi, hci⟩ := h
    refine ⟨time.getD i 0, ?_, by simpa using hci⟩
    rw [List.getD_eq_getElem _ _ hi]
    exact List.getElem_mem hi
  obtain ⟨hlt, hat, hbefore⟩ := npArgmax_first_true _ hany
  rw [List.length_map] at hlt
  refine ⟨hlt, ?_, ?_⟩
  · rw [getD_map_bool _ _ _ hlt] at hat
    exact of_decide_eq_true hat
  · intro j hj
    have hjlen : j < time.length := Nat.lt_trans hj hlt
    have := hbefore j hj
    rw [getD_map_bool _ _ _ hjlen] at this
    exact le_of_not_lt (of_decide_eq_false this)

/-- Claim C2 as stated is false of the scripts: with channel time domain
`[0, 1]` (samples `0, 1/2, 1`) and cycle `(0.2, 1.5)`, the spec-modelled
resolver raises `OutOfRangeError`, but the script's resolution is a total
computation that returns the index pair `(1, -1)` (`np.argmax` of an
all-`False` mask is `0`, so `finalInd = 0 - 1 = -1`); no error is raised. -/
theorem outOfRange_returnsIndices_counterexample :
    cycleWindowResolveSpec [0, 1/2, 1] (1/5) (3/2) = Except.error "OutOfRangeError" ∧
    cycleWindowResolve [0, 1/2, 1] (1/5) (3/2) = (1, -1) := by
  constructor
  · norm_num [cycleWindowResolveSpec, List.any_cons]
  · norm_num [cycleWindowResolve, npArgmax, List.findIdx_cons, List.any_cons]

/-- Claim C2 amended: when no index satisfies `time[i] > finalTime`, the
resolution does not raise; `np.argmax` returns `0` on the all-`False` mask,
so the resolved end index is `0 - 1 = -1`, and likewise an unsatisfiable
initial-time search yields start index `0`. -/
theorem outOfRange_silentIndices (time : List ℚ) (it ft : ℚ)
    (h : ∀ i < time.length, time.getD i 0 ≤ ft) :
    (cycleWindowResolve time it ft).2 = -1 ∧
    ((∀ i < time.length, time.getD i 0 ≤ it) →
      (cycleWindowResolve time it ft).1 = 0) := by
  have hmask : ∀ c : ℚ, (∀ i < time.length, time.getD i 0 ≤ c) →
      (time.map (fun t => decide (c < t))).any id = false := by
    intro c hc
    rw [any_map_decide]
    rw [List.any_eq_false]
    intro x hx
    obtain ⟨i, hi, hval⟩ := List.mem_iff_getElem.mp hx
    have hle : x ≤ c := by
      have := hc i hi
      rwa [List.getD_eq_getElem _ _ hi, hval] at this
    simpa using not_lt_of_le hle
  constructor
  · show (npArgmax (time.map (fun t => decide (ft < t))) : Int) - 1 = -1
    rw [npArgmax_of_all_false _ (hmask ft h)]
    rfl
  · intro hit
    exact npArgmax_of_all_false _ (hmask it hit)

/-- Witness for the amended C2 at concrete input: time samples `0, 1/2, 1`,
initial time `5`, final time `3/2`. -/
theorem outOfRange_silentIndices_witness :
    (cycleWindowResolve [0, 1/2, 1] 5 (3/2)).2 = -1 ∧
    ((∀ i < ([0, 1/2, 1] : List ℚ).length, ([0, 1/2, 1] : List ℚ).getD i 0 ≤ 5) →
      (cycleWindowResolve [0, 1/2, 1] 5 (3/2)).1 = 0) :=
  outOfRange_silentIndices [0, 1/2, 1] 5 (3/2)
    (by
      intro i hi
      have hi3 : i < 3 := by simpa using hi
      interval_cases i <;> norm_num)

/-- Claim C4: when both searches are satisfiable, the resolved start index
is the least index `i` with `time[i] > initialTime`, and the resolved end
index is the least index `k` with `time[k] > finalTime`, minus one. -/
theorem resolver_firstIndex (time : List ℚ) (it ft : ℚ)
    (h1 : ∃ i, i < time.length ∧ it < time.getD i 0)
    (h2 : ∃ i, i < time.length ∧ ft < time.getD i 0) :
    ((cycleWindowResolve time it ft).1 < time.length ∧
      it < time.getD (cycleWindowResolve time it ft).1 0 ∧
      ∀ j < (cycleWindowResolve time it ft).1, time.getD j 0 ≤ it) ∧
    (∃ k, k < time.length ∧ (cycleWindowResolve time it ft).2 = (k : Int) - 1 ∧
      ft < time.getD k 0 ∧ ∀ j < k, time.getD j 0 ≤ ft) := by
  refine ⟨npArgmax_gt_spec time it h1, ?_⟩
  obtain ⟨hk1, hk2, hk3⟩ := npArgmax_gt_spec time ft h2
  exact ⟨npArgmax (time.map (fun t => decide (ft < t))), hk1, rfl, hk2, hk3⟩

/-- Witness for C4 at time samples `0, 1, 2` with cycle `(1/2, 3/2)`:
the resolution is `(1, 1)` and both index characterisations hold. -/
theorem resolver_firstIndex_witness :
    ((cycleWindowResolve [0, 1, 2] (1/2) (3/2)).1 < ([0, 1, 2] : List ℚ).length ∧
      (1 : ℚ)/2 < ([0, 1, 2] : List ℚ).getD (cycleWindowResolve [0, 1, 2] (1/2) (3/2)).1 0 ∧
      ∀ j < (cycleWindowResolve [0, 1, 2] (1/2) (3/2)).1,
        ([0, 1, 2] : List ℚ).getD j 0 ≤ 1/2) ∧
    (∃ k, k < ([0, 1, 2] : List ℚ).length ∧
      (cycleWindowResolve [0, 1, 2] (1/2) (3/2)).2 = (k : Int) - 1 ∧
      (3 : ℚ)/2 < ([0, 1, 2] : List ℚ).getD k 0 ∧
      ∀ j < k, ([0, 1, 2] : List ℚ).getD j 0 ≤ 3/2) :=
  resolver_firstIndex [0, 1, 2] (1/2) (3/2)
    ⟨1, by norm_num⟩ ⟨2, by norm_num⟩

theorem pyIdx_ofNat (n a : Nat) (h : a ≤ n) : pyIdx n (a : Int) = a := by
  unfold pyIdx
  rw [if_neg (by omega)]
  omega

theorem pySlice_natBounds (l : List ℚ) (a b : Nat) (ha : a ≤ b) (hb : b ≤ l.length) :
    pySlice l (a : Int) (b : Int) = (l.take b).drop a := by
  unfold pySlice
  rw [pyIdx_ofNat _ _ hb, pyIdx_ofNat _ _ (le_trans ha hb)]

theorem pySlice_halfOpen (l : List ℚ) (a b : Nat) (ha : a ≤ b) (hb : b ≤ l.length) :
    (pySlice l (a : Int) (b : Int)).length = b - a ∧
    ∀ k < b - a, (pySlice l (a : Int) (b : Int)).getD k 0 = l.getD (a + k) 0 ∧
      a + k < b := by
  have hlen : (pySlice l (a : Int) (b : Int)).length = b - a := by
    rw [pySlice_natBounds l a b ha hb, List.length_drop, List.length_take]
    omega
  refine ⟨hlen, ?_⟩
  intro k hk
  refine ⟨?_, by omega⟩
  rw [pySlice_natBounds l a b ha hb]
  have h1 : a + k < l.length := by omega
  have h2 : k < ((l.take b).drop a).length := by
    rw [List.length_drop, List.length_take]; omega
  have h3 : a + k < (l.take b).length := by rw [List.length_take]; omega
  rw [List.getD_eq_getElem _ _ h2, List.getD_eq_getElem _ _ h1]
  simp [List.getElem_drop, List.getElem_take]

/-- Claim C10: the samples handed to normalisation are exactly those at
indices `startIndex` through `endIndex - 1`; the half-open slice
`value[startIndex:endIndex]` never includes the sample at `endIndex`. -/
theorem windowValue_halfOpen (time value : List ℚ) (it ft : ℚ) (e : Nat)
    (he : (cycleWindowResolve time it ft).2 = (e : Int))
    (hse : (cycleWindowResolve time it ft).1 ≤ e)
    (hb : e ≤ value.length) :
    (windowValue time value it ft).length = e - (cycleWindowResolve time it ft).1 ∧
    ∀ k < e - (cycleWindowResolve time it ft).1,
      (windowValue time value it ft).getD k 0 =
        value.getD ((cycleWindowResolve time it ft).1 + k) 0 ∧
      (cycleWindowResolve time it ft).1 + k < e := by
  unfold windowValue
  rw [he]
  exact pySlice_halfOpen value _ e hse hb

/-- Witness for C10: time samples `0, 1, 2, 3`, values `10, 20, 30, 40`,
cycle `(1/2, 5/2)` resolves to `(1, 2)`; the window is `[20]`, excluding
the sample `30` that sits at the resolved end index. -/
theorem windowValue_halfOpen_witness :
    (windowValue [0, 1, 2, 3] [10, 20, 30, 40] (1/2) (5/2)).length =
      2 - (cycleWindowResolve [0, 1, 2, 3] (1/2) (5/2)).1 ∧
    ∀ k < 2 - (cycleWindowResolve [0, 1, 2, 3] (1/2) (5/2)).1,
      (windowValue [0, 1, 2, 3] [10, 20, 30, 40] (1/2) (5/2)).getD k 0 =
        ([10, 20, 30, 40] : List ℚ).getD
          ((cycleWindowResolve [0, 1, 2, 3] (1/2) (5/2)).1 + k) 0 ∧
      (cycleWindowResolve [0, 1, 2, 3] (1/2) (5/2)).1 + k < 2 :=
  windowValue_halfOpen [0, 1, 2, 3] [10, 20, 30, 40] (1/2) (5/2) 2
    (by norm_num [cycleWindowResolve, npArgmax, List.findIdx_cons, List.any_cons])
    (by norm_num [cycleWindowResolve, npArgmax, List.findIdx_cons, List.any_cons])
    (by norm_num)

theorem findIdx_eq_first (p : ℚ → Bool) (l : List ℚ) (k : Nat) (hk : k < l.length)
    (hat : p (l.getD k 0) = true) (hbefore : ∀ j < k, p (l.getD j 0) = false) :
    l.findIdx p = k := by
  induction l generalizing k with
  | nil => simp at hk
  | cons x t ih =>
      cases k with
      | zero =>
          rw [List.findIdx_cons]
          simp only [List.getD_cons_zero] at hat
          rw [hat]
          rfl
      | succ k' =>
          have hx : p x = false := by simpa using hbefore 0 (Nat.succ_pos k')
          rw [List.findIdx_cons, hx]
          simp only [cond_false]
          have htail := ih k' (by simpa using hk) (by simpa using hat)
            (fun j hj => by simpa using hbefore (j + 1) (Nat.succ_lt_succ hj))
          omega

theorem normalize101_length (time value : List ℚ) :
    (normalize101 time value).length = 101 := by
  unfold normalize101 linspace
  simp

theorem normalize101_getD (time value : List ℚ) (k : Nat) (hk : k < 101) :
    (normalize101 time value).getD k 0 =
      interp1d time value (time.getD 0 0 +
        (k : ℚ) * ((time.getD (time.length - 1) 0 - time.getD 0 0) / 100)) := by
  unfold normalize101 linspace
  have hk3 : k < (((List.range 101).map (fun (i : Nat) => time.getD 0 0 +
      (i : ℚ) * ((time.getD (time.length - 1) 0 - time.getD 0 0) /
        ((101 - 1 : Nat) : ℚ)))).map (interp1d time value)).length := by
    simpa using hk
  rw [List.getD_eq_getElem _ _ hk3, List.getElem_map, List.getElem_map,
    List.getElem_range]
  norm_num

theorem interp1d_at_first (time value : List ℚ) (h2 : 2 ≤ time.length) :
    interp1d time value (time.getD 0 0) = value.getD 0 0 := by
  have hs : searchsortedLeft time (time.getD 0 0) = 0 := by
    unfold searchsortedLeft
    cases time with
    | nil => simp at h2
    | cons t0 rest =>
        rw [List.findIdx_cons]
        simp
  unfold interp1d
  rw [hs]
  have hmin : min (max 0 1) (time.length - 1) = 1 := by omega
  rw [hmin]
  simp

theorem pairwise_getD_lt (time : List ℚ) (hsort : time.Pairwise (· < ·))
    (i j : Nat) (hi : i < time.length) (hj : j < time.length) (hij : i < j) :
    time.getD i 0 < time.getD j 0 := by
  rw [List.getD_eq_getElem _ _ hi, List.getD_eq_getElem _ _ hj]
  exact List.pairwise_iff_getElem.mp hsort i j hi hj hij

theorem interp1d_at_last (time value : List ℚ) (h2 : 2 ≤ time.length)
    (hsort : time.Pairwise (· < ·)) :
    interp1d time value (time.getD (time.length - 1) 0) =
      value.getD (time.length - 1) 0 := by
  have hn : time.length - 1 < time.length := by omega
  have hs : searchsortedLeft time (time.getD (time.length - 1) 0) =
      time.length - 1 := by
    unfold searchsortedLeft
    apply findIdx_eq_first _ _ _ hn
    · simp
    · intro j hj
      have hlt : time.getD j 0 < time.getD (time.length - 1) 0 :=
        pairwise_getD_lt time hsort j _ (by omega) hn hj
      simpa using not_le_of_lt hlt
  unfold interp1d
  rw [hs]
  have hmin : min (max (time.length - 1) 1) (time.length - 1) =
      time.length - 1 := by omega
  rw [hmin]
  have hne : time.getD (time.length - 1) 0 - time.getD (time.length - 1 - 1) 0 ≠ 0 := by
    have := pairwise_getD_lt time hsort (time.length - 1 - 1) (time.length - 1)
      (by omega) hn (by omega)
    exact sub_ne_zero.mpr (ne_of_gt this)
  show value.getD (time.length - 1 - 1) 0 +
      (value.getD (time.length - 1) 0 - value.getD (time.length - 1 - 1) 0) /
        (time.getD (time.length - 1) 0 - time.getD (time.length - 1 - 1) 0) *
        (time.getD (time.length - 1) 0 - time.getD (time.length - 1 - 1) 0) =
    value.getD (time.length - 1) 0
  rw [div_mul_cancel₀ _ hne]
  ring

theorem interp1d_two (t0 t1 v0 v1 x : ℚ) :
    interp1d [t0, t1] [v0, v1] x = v0 + (v1 - v0) / (t1 - t0) * (x - t0) := by
  unfold interp1d
  have hmin : min (max (searchsortedLeft [t0, t1] x) 1) ([t0, t1].length - 1) = 1 := by
    simp only [List.length_cons, List.length_nil]
    omega
  rw [hmin]
  simp

/-- Claim C3: normalisation samples the piecewise-linear interpolant at
exactly 101 evenly spaced points spanning `time[0]` to `time[-1]`
inclusive; the first and last output elements equal the original first and
last values exactly; and for a 2-sample window every one of the 101 output
points lies on the line through the two samples. -/
theorem normalize101_spec (time value : List ℚ) (h2 : 2 ≤ time.length)
    (hlen : value.length = time.length) (hsort : time.Pairwise (· < ·)) :
    (normalize101 time value).length = 101 ∧
    (∀ k < 101, (normalize101 time value).getD k 0 =
      interp1d time value (time.getD 0 0 +
        (k : ℚ) * ((time.getD (time.length - 1) 0 - time.getD 0 0) / 100))) ∧
    (normalize101 time value).getD 0 0 = value.getD 0 0 ∧
    (normalize101 time value).getD 100 0 = value.getD (value.length - 1) 0 ∧
    (∀ t0 t1 v0 v1 : ℚ, ∀ k < 101,
      (normalize101 [t0, t1] [v0, v1]).getD k 0 =
        v0 + (v1 - v0) / (t1 - t0) * ((t0 + (k : ℚ) * ((t1 - t0) / 100)) - t0)) := by
  refine ⟨normalize101_length time value,
    fun k hk => normalize101_getD time value k hk, ?_, ?_, ?_⟩
  · rw [normalize101_getD time value 0 (by norm_num)]
    have harg : time.getD 0 0 + ((0 : Nat) : ℚ) *
        ((time.getD (time.length - 1) 0 - time.getD 0 0) / 100) =
        time.getD 0 0 := by push_cast; ring
    rw [harg]
    exact interp1d_at_first time value h2
  · rw [normalize101_getD time value 100 (by norm_num)]
    have harg : time.getD 0 0 + ((100 : Nat) : ℚ) *
        ((time.getD (time.length - 1) 0 - time.getD 0 0) / 100) =
        time.getD (time.length - 1) 0 := by push_cast; field_simp
    rw [harg, hlen]
    exact interp1d_at_last time value h2 hsort
  · intro t0 t1 v0 v1 k hk
    rw [normalize101_getD [t0, t1] [v0, v1] k hk, interp1d_two]
    norm_num

/-- Witness for C3 at the window with time samples `0, 1, 2` and values
`5, 7, 9`. -/
theorem normalize101_spec_witness :
    (normalize101 [0, 1, 2] [5, 7, 9]).length = 101 ∧
    (∀ k < 101, (normalize101 [0, 1, 2] [5, 7, 9]).getD k 0 =
      interp1d [0, 1, 2] [5, 7, 9] (([0, 1, 2] : List ℚ).getD 0 0 +
        (k : ℚ) * ((([0, 1, 2] : List ℚ).getD (([0, 1, 2] : List ℚ).length - 1) 0 -
          ([0, 1, 2] : List ℚ).getD 0 0) / 100))) ∧
    (normalize101 [0, 1, 2] [5, 7, 9]).getD 0 0 = ([5, 7, 9] : List ℚ).getD 0 0 ∧
    (normalize101 [0, 1, 2] [5, 7, 9]).getD 100 0 =
      ([5, 7, 9] : List ℚ).getD (([5, 7, 9] : List ℚ).length - 1) 0 ∧
    (∀ t0 t1 v0 v1 : ℚ, ∀ k < 101,
      (normalize101 [t0, t1] [v0, v1]).getD k 0 =
        v0 + (v1 - v0) / (t1 - t0) * ((t0 + (k : ℚ) * ((t1 - t0) / 100)) - t0)) :=
  normalize101_spec [0, 1, 2] [5, 7, 9] (by decide) (by decide) (by decide)

theorem le_foldl_max (xs : List ℚ) (a : ℚ) : a ≤ xs.foldl max a := by
  induction xs generalizing a with
  | nil => exact le_refl a
  | cons y ys ih => exact le_trans (le_max_left a y) (ih (max a y))

theorem mem_le_foldl_max (xs : List ℚ) (a x : ℚ) (hx : x ∈ xs) :
    x ≤ xs.foldl max a := by
  induction xs generalizing a with
  | nil => simp at hx
  | cons y ys ih =>
      rcases List.mem_cons.mp hx with rfl | hmem
      · exact le_trans (le_max_right a x) (le_foldl_max ys (max a x))
      · exact ih (max a y) hmem

theorem foldl_max_mem (xs : List ℚ) (a : ℚ) :
    xs.foldl max a = a ∨ xs.foldl max a ∈ xs := by
  induction xs generalizing a with
  | nil => exact Or.inl rfl
  | cons y ys ih =>
      rcases ih (max a y) with h | h
      · rcases max_choice a y with hm | hm
        · exact Or.inl (by rw [List.foldl_cons, h, hm])
        · exact Or.inr (by rw [List.foldl_cons, h, hm]; exact List.mem_cons_self y ys)
      · exact Or.inr (List.mem_cons_of_mem y h)

theorem le_npMax (l : List ℚ) (x : ℚ) (hx : x ∈ l) : x ≤ npMax l := by
  cases l with
  | nil => simp at hx
  | cons y ys =>
      rcases List.mem_cons.mp hx with rfl | hmem
      · exact le_foldl_max ys x
      · exact mem_le_foldl_max ys y x hmem

theorem npMax_mem (l : List ℚ) (h : l ≠ []) : npMax l ∈ l := by
  cases l with
  | nil => exact absurd rfl h
  | cons y ys =>
      show ys.foldl max y ∈ y :: ys
      rcases foldl_max_mem ys y with hm | hm
      · rw [hm]
        exact List.mem_cons_self y ys
      · exact List.mem_cons_of_mem y hm

/-- Claim C5: the thresholds are `peakVGRF * 0.05` and
`peakVGRF * comHeight * 0.01`, where `peakVGRF` is the maximum of the
per-channel maxima of the two vertical ground-reaction-force channels:
it bounds every sample of both channels and is attained in one of them. -/
theorem residualThresholds_spec (r l : List ℚ) (c : ℚ)
    (hr : r ≠ []) (hl : l ≠ []) :
    forceResidualRec r l = peakVGRF r l * (5 / 100) ∧
    momentResidualRec r l c = peakVGRF r l * c * (1 / 100) ∧
    (∀ x ∈ r, x ≤ peakVGRF r l) ∧ (∀ x ∈ l, x ≤ peakVGRF r l) ∧
    (peakVGRF r l ∈ r ∨ peakVGRF r l ∈ l) := by
  refine ⟨rfl, rfl, ?_, ?_, ?_⟩
  · intro x hx
    exact le_trans (le_npMax r x hx) (le_max_left _ _)
  · intro x hx
    exact le_trans (le_npMax l x hx) (le_max_right _ _)
  · unfold peakVGRF
    rcases max_choice (npMax r) (npMax l) with h | h
    · left
      rw [h]
      exact npMax_mem r hr
    · right
      rw [h]
      exact npMax_mem l hl

/-- Witness for C5 with right channel `3, 10`, left channel `4`, centre of
mass height `2`. -/
theorem residualThresholds_spec_witness :
    forceResidualRec [3, 10] [4] = peakVGRF [3, 10] [4] * (5 / 100) ∧
    momentResidualRec [3, 10] [4] 2 = peakVGRF [3, 10] [4] * 2 * (1 / 100) ∧
    (∀ x ∈ ([3, 10] : List ℚ), x ≤ peakVGRF [3, 10] [4]) ∧
    (∀ x ∈ ([4] : List ℚ), x ≤ peakVGRF [3, 10] [4]) ∧
    (peakVGRF [3, 10] [4] ∈ ([3, 10] : List ℚ) ∨
      peakVGRF [3, 10] [4] ∈ ([4] : List ℚ)) :=
  residualThresholds_spec [3, 10] [4] 2 (by decide) (by decide)

/-- Claim C9: the per-subject peak statistic is the arithmetic mean across
cycles of the per-cycle `max(|series|)`, the mean statistic is the mean
across cycles of the per-cycle `mean(|series|)` — the same mean-across-
cycles aggregation as the RMSE — and each per-cycle `max(|series|)` really
is the maximum absolute sample, attained in the cycle. -/
theorem residualAggregation_spec (cycles : List (List ℚ))
    (h : ∀ s ∈ cycles, s ≠ []) :
    peakResidualEntry cycles =
      (cycles.map (fun s => npMax (s.map abs))).sum / cycles.length ∧
    avgResidualEntry cycles =
      (cycles.map (fun s => (s.map abs).sum / (s.length : ℚ))).sum /
        cycles.length ∧
    ∀ s ∈ cycles, (∀ x ∈ s, |x| ≤ npAbsMax s) ∧ npAbsMax s ∈ s.map abs := by
  refine ⟨?_, ?_, ?_⟩
  · unfold peakResidualEntry npMean
    rw [List.length_map]
    have hmap : List.map npAbsMax cycles =
        List.map (fun s => npMax (s.map abs)) cycles :=
      List.map_congr_left (fun s _ => rfl)
    rw [hmap]
  · unfold avgResidualEntry npMean
    rw [List.length_map]
    have hmap : List.map npAbsMean cycles =
        List.map (fun s => (s.map abs).sum / (s.length : ℚ)) cycles :=
      List.map_congr_left (fun s _ => by simp [npAbsMean, npMean])
    rw [hmap]
  · intro s hs
    constructor
    · intro x hx
      exact le_npMax (s.map abs) |x| (List.mem_map_of_mem abs hx)
    · exact npMax_mem (s.map abs) (by simpa using h s hs)

/-- Witness for C9 with cycles `[1, -3]` and `[2]`. -/
theorem residualAggregation_spec_witness :
    peakResidualEntry [[1, -3], [2]] =
      (([[1, -3], [2]] : List (List ℚ)).map (fun s => npMax (s.map abs))).sum /
        ([[1, -3], [2]] : List (List ℚ)).length ∧
    avgResidualEntry [[1, -3], [2]] =
      (([[1, -3], [2]] : List (List ℚ)).map
        (fun s => (s.map abs).sum / (s.length : ℚ))).sum /
        ([[1, -3], [2]] : List (List ℚ)).length ∧
    ∀ s ∈ ([[1, -3], [2]] : List (List ℚ)),
      (∀ x ∈ s, |x| ≤ npAbsMax s) ∧ npAbsMax s ∈ s.map abs :=
  residualAggregation_spec [[1, -3], [2]] (by decide)

/-- Claim C7: the three run-time shapes — single duration per cycle is
averaged across cycles, sub-durations are summed within each cycle then
averaged, and a whole-trial duration is rescaled by
`meanCycleDuration / totalTrialDuration`; with mean cycle duration 1 s,
trial duration 10 s and raw duration 50 s the scaled duration is 5 s. -/
theorem runTimeNormalizer_spec (ds : List ℚ) (subs : List (List ℚ))
    (timings : List (ℚ × ℚ)) (trial : List ℚ) (raw : ℚ)
    (h1 : avgCycleDuration timings = 1)
    (h2 : trial.getD (trial.length - 1) 0 - trial.getD 0 0 = 10) :
    solutionTimeSingle ds = ds.sum / ds.length ∧
    solutionTimeIterative subs = (subs.map List.sum).sum / subs.length ∧
    avgCycleDuration timings =
      (timings.map (fun c => c.2 - c.1)).sum / timings.length ∧
    addBiomechanicsTimeScaled raw timings trial =
      raw * (avgCycleDuration timings /
        (trial.getD (trial.length - 1) 0 - trial.getD 0 0)) ∧
    addBiomechanicsTimeScaled 50 timings trial = 5 := by
  refine ⟨rfl, ?_, ?_, rfl, ?_⟩
  · simp [solutionTimeIterative, npMean]
  · simp [avgCycleDuration, npMean]
  · unfold addBiomechanicsTimeScaled
    rw [h1, h2]
    norm_num

/-- Witness for C7: one cycle `(0, 1)`, trial time base `0, 10`,
per-cycle durations `2, 4` and sub-durations `[1, 2], [3]`. -/
theorem runTimeNormalizer_spec_witness :
    solutionTimeSingle [2, 4] = ([2, 4] : List ℚ).sum / ([2, 4] : List ℚ).length ∧
    solutionTimeIterative [[1, 2], [3]] =
      (([[1, 2], [3]] : List (List ℚ)).map List.sum).sum /
        ([[1, 2], [3]] : List (List ℚ)).length ∧
    avgCycleDuration [(0, 1)] =
      (([(0, 1)] : List (ℚ × ℚ)).map (fun c => c.2 - c.1)).sum /
        ([(0, 1)] : List (ℚ × ℚ)).length ∧
    addBiomechanicsTimeScaled 7 [(0, 1)] [0, 10] =
      7 * (avgCycleDuration [(0, 1)] /
        (([0, 10] : List ℚ).getD (([0, 10] : List ℚ).length - 1) 0 -
          ([0, 10] : List ℚ).getD 0 0)) ∧
    addBiomechanicsTimeScaled 50 [(0, 1)] [0, 10] = 5 :=
  runTimeNormalizer_spec [2, 4] [[1, 2], [3]] [(0, 1)] [0, 10] 7
    (by norm_num [avgCycleDuration, npMean]) (by norm_num)

/-- Claim C6: a rotation-class curve from the radians-convention method is
multiplied elementwise by `180 / π`; a constant curve of value `π` lands
within `1e-9` of `180` degrees (here: exactly); translation-class curves
pass through unchanged. -/
theorem unitReconciliation_spec (var tvar : String) (curve : List ℝ)
    (h : var ∉ translationVars) (ht : tvar ∈ translationVars) :
    mocoExtractVar var curve = curve.map (fun x => x * (180 / Real.pi)) ∧
    (∀ y ∈ mocoExtractVar var (List.replicate 101 Real.pi),
      |y - 180| ≤ 1 / 1000000000) ∧
    mocoExtractVar tvar curve = curve := by
  refine ⟨?_, ?_, ?_⟩
  · unfold mocoExtractVar
    rw [if_neg h]
    rfl
  · intro y hy
    unfold mocoExtractVar at hy
    rw [if_neg h] at hy
    obtain ⟨x, hx, rfl⟩ := List.mem_map.mp hy
    have hxpi : x = Real.pi := List.eq_of_mem_replicate hx
    subst hxpi
    have h180 : rad2deg Real.pi = 180 := by
      unfold rad2deg
      field_simp
    rw [h180]
    norm_num
  · unfold mocoExtractVar
    rw [if_pos ht]

/-- Witness for C6 at the rotation variable `hip_flexion_r` and the
translation variable `pelvis_tx`. -/
theorem unitReconciliation_spec_witness :
    mocoExtractVar "hip_flexion_r" [0] =
      ([0] : List ℝ).map (fun x => x * (180 / Real.pi)) ∧
    (∀ y ∈ mocoExtractVar "hip_flexion_r" (List.replicate 101 Real.pi),
      |y - 180| ≤ 1 / 1000000000) ∧
    mocoExtractVar "pelvis_tx" [0] = [0] :=
  unitReconciliation_spec "hip_flexion_r" "pelvis_tx" [0]
    (by decide) (by decide)

theorem zipWith_sq_comm (a b : List ℚ) :
    List.zipWith (fun x y => (x - y) ^ 2) a b =
    List.zipWith (fun x y => (x - y) ^ 2) b a := by
  induction a generalizing b with
  | nil => simp
  | cons x xs ih =>
      cases b with
      | nil => simp
      | cons y ys =>
          simp only [List.zipWith_cons_cons, List.cons.injEq]
          exact ⟨by ring, ih ys⟩

theorem zipWith_sq_self (a : List ℚ) :
    List.zipWith (fun x y => (x - y) ^ 2) a a = List.replicate a.length 0 := by
  induction a with
  | nil => rfl
  | cons x xs ih =>
      simp [List.replicate_succ, ih]

theorem rmse_comm (a b : List ℚ) : rmse a b = rmse b a := by
  unfold rmse
  rw [zipWith_sq_comm]

theorem rmse_self (a : List ℚ) : rmse a a = 0 := by
  unfold rmse npMean
  rw [zipWith_sq_self]
  simp

/-- Claim C8: every stored comparison entry is symmetric in the two tools,
and every diagonal entry is exactly zero, for every kinematics store, tool
pair and cycle. -/
theorem comparisonMatrix_symm_diag (kin : Tool → Cycle → List ℚ)
    (a b : Tool) (c : Cycle) :
    kinematicsRMSE kin a b c = kinematicsRMSE kin b a c ∧
    kinematicsRMSE kin a a c = 0 :=
  ⟨rmse_comm _ _, rmse_self _⟩

/-- Claim C1 fails on the scripts (the defect the spec's design notes
flag): the entry stored for `cycle2` of the IK-vs-RRA comparison is
computed from the `'cycle1'` curves and equals `0`, while the RMSE of the
two tools' actual `cycle2` curves is `1`. -/
theorem rmseEntry_usesFixedCycle1 :
    kinematicsRMSE kinStoreEx Tool.ik Tool.rra Cycle.cycle2 = 0 ∧
    rmse (kinStoreEx Tool.ik Cycle.cycle2) (kinStoreEx Tool.rra Cycle.cycle2)
      = 1 := by
  constructor
  · show rmse [0] [0] = 0
    exact rmse_self [0]
  · show rmse [0] [1] = 1
    unfold rmse npMean
    norm_num
